import Mathlib

/-!
Verification of the BioFilterLib digital-filter core: a shallow embedding of
the FIRFilter, IIRFilter and LMSFilter C++ wrapper classes together with the
CMSIS-DSP processing kernels they delegate to.  Samples and coefficients
(float32_t in the source) are modelled exactly, as rationals; lists stand for
the C arrays, newest delay-line entry first.  The CMSIS-DSP kernel bodies are
not part of the repository, so they are modelled from the specification's
formulas; the wrapper constructors and methods are translated directly from
FIRFilter.cpp, IIRFilter.cpp and LMSFilter.cpp.
-/

/-- Dot product of two coefficient/history lists, truncating at the shorter
list (a missing history entry contributes zero, matching a zero-initialized
delay line). -/
def dot : List ℚ → List ℚ → ℚ
  | [], _ => 0
  | _, [] => 0
  | a :: as, b :: bs => a * b + dot as bs

/-- Shift a new sample into a fixed-length delay line, newest entry first:
the oldest entry falls off, the buffer length never changes. -/
def shiftIn (s : List ℚ) (x : ℚ) : List ℚ :=
  (x :: s).take s.length

/-- State-buffer size computed by the FIRFilter constructor, from
FIRFilter.cpp: numTaps + blockSize - 1, where numTaps and blockSize are
uint16_t promoted to int and the difference is converted to uint32_t: for
numTaps = blockSize = 0 the int value -1 wraps around to 4294967295,
otherwise (both counts being below 65536) the value is numTaps +
blockSize - 1 unchanged. -/
def firStateSize (numTaps blockSize : ℕ) : ℕ :=
  if numTaps + blockSize = 0 then 4294967295 else numTaps + blockSize - 1

/-- A FIRFilter instance: the coefficient array (numTaps entries, read-only),
the configured block size, and the engine-owned state buffer. -/
structure FIRFilter where
  coeffs : List ℚ
  blockSize : ℕ
  state : List ℚ
deriving DecidableEq

/-- FIRFilter constructor, from FIRFilter.cpp: stores the coefficients and
block size and allocates a zero-initialized state buffer of
numTaps + blockSize - 1 elements.  No parameter validation is performed. -/
def FIRFilter.construct (coeffs : List ℚ) (blockSize : ℕ) : FIRFilter :=
  { coeffs := coeffs
    blockSize := blockSize
    state := List.replicate (firStateSize coeffs.length blockSize) 0 }

/-- Modelled from the spec: the CMSIS-DSP kernel arm_fir_f32, absent from the
repository sources.  Per spec 4.1, for each input sample in order: shift the
sample into the delay line, output the convolution of the coefficients with
the history.  Returns the outputs and the final state buffer. -/
def arm_fir_f32 (coeffs : List ℚ) (state : List ℚ) : List ℚ → List ℚ × List ℚ
  | [] => ([], state)
  | x :: xs =>
    let s := shiftIn state x
    let r := arm_fir_f32 coeffs s xs
    (dot coeffs s :: r.1, r.2)

/-- FIRFilter::processSample, from FIRFilter.cpp: calls arm_fir_f32 with a
block of length 1 and returns the single output. -/
def FIRFilter.processSample (f : FIRFilter) (input : ℚ) : ℚ × FIRFilter :=
  let r := arm_fir_f32 f.coeffs f.state [input]
  (r.1.headD 0, { f with state := r.2 })

/-- FIRFilter::processBuffer, from FIRFilter.cpp: calls arm_fir_f32 on the
whole input block. -/
def FIRFilter.processBuffer (f : FIRFilter) (inputArray : List ℚ) :
    List ℚ × FIRFilter :=
  let r := arm_fir_f32 f.coeffs f.state inputArray
  (r.1, { f with state := r.2 })

/-- Driver feeding a sequence one sample at a time through
FIRFilter.processSample, collecting the outputs and the final instance. -/
def firIter (f : FIRFilter) : List ℚ → List ℚ × FIRFilter
  | [] => ([], f)
  | x :: xs =>
    let r := f.processSample x
    let rest := firIter r.2 xs
    (r.1 :: rest.1, rest.2)

/-- An IIRFilter instance: the flat coefficient array (5 per section, order
b0, b1, b2, a1, a2), the section count, the block size, and the engine-owned
state buffer (4 entries per section: x1, x2, y1, y2). -/
structure IIRFilter where
  coeffs : List ℚ
  numStages : ℕ
  blockSize : ℕ
  state : List ℚ
deriving DecidableEq

/-- IIRFilter constructor, from IIRFilter.cpp: stores the coefficients,
section count and block size and allocates a zero-initialized state buffer of
4 * numStages elements. -/
def IIRFilter.construct (coeffs : List ℚ) (numStages blockSize : ℕ) :
    IIRFilter :=
  { coeffs := coeffs
    numStages := numStages
    blockSize := blockSize
    state := List.replicate (4 * numStages) 0 }

/-- Modelled from the spec: one sample through the Direct-Form-I biquad
cascade of the CMSIS-DSP kernel arm_biquad_cascade_df1_f32, absent from the
repository sources.  Per spec 4.2, each section computes
y = b0*x + b1*x1 + b2*x2 - a1*y1 - a2*y2 from its own 4-element state slice,
shifts its state, and feeds y to the next section. -/
def biquadStep : List ℚ → List ℚ → ℚ → ℚ × List ℚ
  | b0 :: b1 :: b2 :: a1 :: a2 :: cs, x1 :: x2 :: y1 :: y2 :: ss, x =>
    let y := b0 * x + b1 * x1 + b2 * x2 - a1 * y1 - a2 * y2
    let r := biquadStep cs ss y
    (r.1, x :: x1 :: y :: y1 :: r.2)
  | _, ss, x => (x, ss)

/-- Modelled from the spec: the CMSIS-DSP kernel arm_biquad_cascade_df1_f32
on a block, absent from the repository sources: each input sample in order is
passed through the whole cascade. -/
def arm_biquad_cascade_df1_f32 (coeffs : List ℚ) (state : List ℚ) :
    List ℚ → List ℚ × List ℚ
  | [] => ([], state)
  | x :: xs =>
    let r := biquadStep coeffs state x
    let rest := arm_biquad_cascade_df1_f32 coeffs r.2 xs
    (r.1 :: rest.1, rest.2)

/-- IIRFilter::processSample, from IIRFilter.cpp: calls the cascade kernel
with a block of length 1. -/
def IIRFilter.processSample (f : IIRFilter) (input : ℚ) : ℚ × IIRFilter :=
  let r := arm_biquad_cascade_df1_f32 f.coeffs f.state [input]
  (r.1.headD 0, { f with state := r.2 })

/-- IIRFilter::processBuffer, from IIRFilter.cpp: calls the cascade kernel on
the whole input block. -/
def IIRFilter.processBuffer (f : IIRFilter) (inputArray : List ℚ) :
    List ℚ × IIRFilter :=
  let r := arm_biquad_cascade_df1_f32 f.coeffs f.state inputArray
  (r.1, { f with state := r.2 })

/-- Driver feeding a sequence one sample at a time through
IIRFilter.processSample. -/
def iirIter (f : IIRFilter) : List ℚ → List ℚ × IIRFilter
  | [] => ([], f)
  | x :: xs =>
    let r := f.processSample x
    let rest := iirIter r.2 xs
    (r.1 :: rest.1, rest.2)

/-- An LMSFilter instance: the adaptive coefficient array (numTaps entries,
caller-owned storage mutated by the engine), the adaptation step size mu, the
block size, and the engine-owned delay-line state buffer (numTaps entries,
newest first). -/
structure LMSFilter where
  coeffs : List ℚ
  mu : ℚ
  blockSize : ℕ
  state : List ℚ
deriving DecidableEq

/-- LMSFilter constructor, from LMSFilter.cpp: stores the coefficients, step
size and block size and allocates a zero-initialized state buffer of exactly
numTaps elements (no blockSize - 1 extension). -/
def LMSFilter.construct (coeffs : List ℚ) (mu : ℚ) (blockSize : ℕ) :
    LMSFilter :=
  { coeffs := coeffs
    mu := mu
    blockSize := blockSize
    state := List.replicate coeffs.length 0 }

/-- Pointwise LMS weight update: each weight w(k) becomes
w(k) + alpha * h(k) where alpha = mu * e; weights beyond the history length
see a zero history sample and are unchanged. -/
def lmsUpdate : List ℚ → List ℚ → ℚ → List ℚ
  | [], _, _ => []
  | ws, [], _ => ws
  | w :: ws, h :: hs, alpha => (w + alpha * h) :: lmsUpdate ws hs alpha

/-- Modelled from the spec: one step of the CMSIS-DSP kernel arm_lms_f32,
absent from the repository sources.  Per spec 4.3, in order: (1) output y is
the dot product of the current weights with the current delay line, (2) the
error is the reference minus y, (3) every weight is advanced by
mu * e * history, (4) the input sample is shifted into the delay line.
Returns (y, e, new weights, new delay line). -/
def lmsStep (w hist : List ℚ) (mu x d : ℚ) : ℚ × ℚ × List ℚ × List ℚ :=
  let y := dot w hist
  let e := d - y
  (y, e, lmsUpdate w hist (mu * e), shiftIn hist x)

/-- Modelled from the spec: the CMSIS-DSP kernel arm_lms_f32 on a block,
absent from the repository sources: the four-step update is applied once per
sample, strictly sequentially, threading the adapted weights and delay line.
Returns (outputs, errors, final weights, final delay line). -/
def arm_lms_f32 (mu : ℚ) (w hist : List ℚ) :
    List ℚ → List ℚ → List ℚ × List ℚ × List ℚ × List ℚ
  | x :: xs, d :: ds =>
    let r := lmsStep w hist mu x d
    let rest := arm_lms_f32 mu r.2.2.1 r.2.2.2 xs ds
    (r.1 :: rest.1, r.2.1 :: rest.2.1, rest.2.2)
  | _, _ => ([], [], w, hist)

/-- LMSFilter::processSample, from LMSFilter.cpp: calls arm_lms_f32 with a
block of length 1, returning the output, the error and the updated
instance. -/
def LMSFilter.processSample (f : LMSFilter) (input reference : ℚ) :
    ℚ × ℚ × LMSFilter :=
  let r := arm_lms_f32 f.mu f.coeffs f.state [input] [reference]
  (r.1.headD 0, r.2.1.headD 0,
    { f with coeffs := r.2.2.1, state := r.2.2.2 })

/-- LMSFilter::processBuffer, from LMSFilter.cpp: calls arm_lms_f32 on the
whole block. -/
def LMSFilter.processBuffer (f : LMSFilter) (inputArray referenceArray : List ℚ) :
    List ℚ × List ℚ × LMSFilter :=
  let r := arm_lms_f32 f.mu f.coeffs f.state inputArray referenceArray
  (r.1, r.2.1, { f with coeffs := r.2.2.1, state := r.2.2.2 })

/-- LMSFilter::getMu, from LMSFilter.h: returns the stored step size. -/
def LMSFilter.getMu (f : LMSFilter) : ℚ := f.mu

/-- LMSFilter::setMu, from LMSFilter.cpp: overwrites the stored step size
(and the step size the processing kernel reads), touching nothing else. -/
def LMSFilter.setMu (f : LMSFilter) (newMu : ℚ) : LMSFilter :=
  { f with mu := newMu }

/-- LMSFilter::resetCoefficients, from LMSFilter.cpp: overwrites the numTaps
coefficients with the supplied vector, or with zeros when none is supplied,
and zeros the numTaps entries of the delay-line state buffer.  The step size,
tap count and block size are untouched. -/
def LMSFilter.resetCoefficients (f : LMSFilter) (newCoeffs : Option (List ℚ)) :
    LMSFilter :=
  { f with
    coeffs := match newCoeffs with
      | some cs => cs.take f.coeffs.length
      | none => List.replicate f.coeffs.length 0
    state := List.replicate f.coeffs.length 0 }

/-- Driver feeding input/reference sequences one sample at a time through
LMSFilter.processSample. -/
def lmsIter (f : LMSFilter) : List ℚ → List ℚ → List ℚ × List ℚ × LMSFilter
  | x :: xs, d :: ds =>
    let r := f.processSample x d
    let rest := lmsIter r.2.2 xs ds
    (r.1 :: rest.1, r.2.1 :: rest.2.1, rest.2.2)
  | _, _ => ([], [], f)

lemma dot_replicate_zero (l : List ℚ) (n : ℕ) : dot l (List.replicate n 0) = 0 := by
  induction l generalizing n with
  | nil => simp [dot]
  | cons a as ih =>
    cases n with
    | zero => simp [dot]
    | succ m => simp [List.replicate_succ, dot, ih]

lemma dot_impulse (c : List ℚ) (k m : ℕ) :
    dot c (List.replicate k 0 ++ 1 :: List.replicate m 0) = c.getD k 0 := by
  induction k generalizing c with
  | zero =>
    cases c with
    | nil => simp [dot]
    | cons a as => simp [dot, dot_replicate_zero]
  | succ k ih =>
    cases c with
    | nil => simp [dot]
    | cons a as => simp [List.replicate_succ, dot, ih]

lemma shiftIn_length (s : List ℚ) (x : ℚ) : (shiftIn s x).length = s.length := by
  simp [shiftIn]

lemma shiftIn_replicate_zero (n : ℕ) :
    shiftIn (List.replicate n 0) 0 = List.replicate n 0 := by
  simp [shiftIn, ← List.replicate_succ, List.take_replicate]

lemma shiftIn_impulse (p m : ℕ) :
    shiftIn (List.replicate p 0 ++ 1 :: List.replicate (m + 1) 0) 0
      = List.replicate (p + 1) 0 ++ 1 :: List.replicate m 0 := by
  have e1 : (0 : ℚ) :: (List.replicate p 0 ++ 1 :: List.replicate (m + 1) 0)
      = (List.replicate (p + 1) (0 : ℚ) ++ 1 :: List.replicate m 0) ++ [0] := by
    rw [List.replicate_succ' m (0 : ℚ), List.replicate_succ (0 : ℚ) p]
    simp
  unfold shiftIn
  rw [e1, List.take_left']
  simp
  omega

lemma biquadStep_state_length (cs ss : List ℚ) (x : ℚ) :
    (biquadStep cs ss x).2.length = ss.length := by
  induction cs, ss, x using biquadStep.induct with
  | case1 b0 b1 b2 a1 a2 cs x1 x2 y1 y2 ss x y ih =>
    simp only [biquadStep, List.length_cons]
    rw [show (biquadStep cs ss (b0 * x + b1 * x1 + b2 * x2 - a1 * y1 - a2 * y2)).2.length
        = ss.length from ih]
  | case2 cs ss x h => simp [biquadStep]

lemma biquadStep_zero (cs ss : List ℚ) (x : ℚ) (hx : x = 0)
    (hss : ∀ a ∈ ss, a = 0) : biquadStep cs ss x = (0, ss) := by
  induction cs, ss, x using biquadStep.induct with
  | case1 b0 b1 b2 a1 a2 cs x1 x2 y1 y2 ss x y ih =>
    have h1 : x1 = 0 := hss x1 (by simp)
    have h2 : x2 = 0 := hss x2 (by simp)
    have h3 : y1 = 0 := hss y1 (by simp)
    have h4 : y2 = 0 := hss y2 (by simp)
    subst hx h1 h2 h3 h4
    have hy : b0 * 0 + b1 * 0 + b2 * 0 - a1 * 0 - a2 * 0 = 0 := by ring
    have hrec : biquadStep cs ss (b0 * 0 + b1 * 0 + b2 * 0 - a1 * 0 - a2 * 0)
        = (0, ss) :=
      ih (by show b0 * 0 + b1 * 0 + b2 * 0 - a1 * 0 - a2 * 0 = 0; ring)
        (fun a ha => hss a (by simp [ha]))
    have hrec0 : biquadStep cs ss 0 = (0, ss) := by rw [hy] at hrec; exact hrec
    simp [biquadStep, hrec0]
  | case2 cs ss x h =>
    subst hx
    simp [biquadStep]

lemma lmsUpdate_length (w h : List ℚ) (alpha : ℚ) :
    (lmsUpdate w h alpha).length = w.length := by
  induction w generalizing h with
  | nil => simp [lmsUpdate]
  | cons a ws ih =>
    cases h with
    | nil => simp [lmsUpdate]
    | cons b hs => simp [lmsUpdate, ih]

lemma lmsUpdate_eq_ofFn (w h : List ℚ) (alpha : ℚ) :
    lmsUpdate w h alpha
      = List.ofFn (fun k : Fin w.length => w.get k + alpha * h.getD k 0) := by
  induction w generalizing h with
  | nil => simp [lmsUpdate]
  | cons a ws ih =>
    cases h with
    | nil =>
      simp [lmsUpdate, List.ofFn_succ, ih]
    | cons b hs =>
      simp [lmsUpdate, List.ofFn_succ, ih]

lemma arm_fir_state_length (c s xs : List ℚ) :
    (arm_fir_f32 c s xs).2.length = s.length := by
  induction xs generalizing s with
  | nil => simp [arm_fir_f32]
  | cons x xs ih => simp [arm_fir_f32, ih, shiftIn_length]

lemma arm_biquad_state_length (c s xs : List ℚ) :
    (arm_biquad_cascade_df1_f32 c s xs).2.length = s.length := by
  induction xs generalizing s with
  | nil => simp [arm_biquad_cascade_df1_f32]
  | cons x xs ih =>
    simp [arm_biquad_cascade_df1_f32, ih, biquadStep_state_length]

lemma arm_lms_state_length (mu : ℚ) (w hist xs ds : List ℚ) :
    (arm_lms_f32 mu w hist xs ds).2.2.2.length = hist.length := by
  induction xs generalizing w hist ds with
  | nil => simp [arm_lms_f32]
  | cons x xs ih =>
    cases ds with
    | nil => simp [arm_lms_f32]
    | cons d ds => simp [arm_lms_f32, lmsStep, ih, shiftIn_length]

lemma arm_lms_coeffs_length (mu : ℚ) (w hist xs ds : List ℚ) :
    (arm_lms_f32 mu w hist xs ds).2.2.1.length = w.length := by
  induction xs generalizing w hist ds with
  | nil => simp [arm_lms_f32]
  | cons x xs ih =>
    cases ds with
    | nil => simp [arm_lms_f32]
    | cons d ds => simp [arm_lms_f32, lmsStep, ih, lmsUpdate_length]

lemma arm_fir_zeros (c : List ℚ) (L n : ℕ) :
    arm_fir_f32 c (List.replicate L 0) (List.replicate n 0)
      = (List.replicate n 0, List.replicate L 0) := by
  induction n with
  | zero => simp [arm_fir_f32]
  | succ n ih =>
    simp [List.replicate_succ, arm_fir_f32, shiftIn_replicate_zero, ih,
      dot_replicate_zero]

lemma arm_biquad_zeros (c : List ℚ) (L n : ℕ) :
    arm_biquad_cascade_df1_f32 c (List.replicate L 0) (List.replicate n 0)
      = (List.replicate n 0, List.replicate L 0) := by
  induction n with
  | zero => simp [arm_biquad_cascade_df1_f32]
  | succ n ih =>
    simp [List.replicate_succ, arm_biquad_cascade_df1_f32, ih,
      biquadStep_zero c (List.replicate L 0) 0 rfl (by simp)]

lemma firIter_eq_processBuffer (f : FIRFilter) (xs : List ℚ) :
    firIter f xs = f.processBuffer xs := by
  induction xs generalizing f with
  | nil => rfl
  | cons x xs ih =>
    simp [firIter, FIRFilter.processSample, FIRFilter.processBuffer,
      arm_fir_f32, ih]

lemma iirIter_eq_processBuffer (f : IIRFilter) (xs : List ℚ) :
    iirIter f xs = f.processBuffer xs := by
  induction xs generalizing f with
  | nil => rfl
  | cons x xs ih =>
    simp [iirIter, IIRFilter.processSample, IIRFilter.processBuffer,
      arm_biquad_cascade_df1_f32, ih]

lemma lmsIter_eq_processBuffer (f : LMSFilter) (xs ds : List ℚ) :
    lmsIter f xs ds = f.processBuffer xs ds := by
  induction xs generalizing f ds with
  | nil => cases ds <;> rfl
  | cons x xs ih =>
    cases ds with
    | nil => rfl
    | cons d ds =>
      simp [lmsIter, LMSFilter.processSample, LMSFilter.processBuffer,
        arm_lms_f32, ih]

lemma biquadStep_append (n : ℕ) :
    ∀ (cs1 ss1 cs2 ss2 : List ℚ) (x : ℚ), cs1.length = 5 * n →
      ss1.length = 4 * n →
      biquadStep (cs1 ++ cs2) (ss1 ++ ss2) x
        = ((biquadStep cs2 ss2 (biquadStep cs1 ss1 x).1).1,
           (biquadStep cs1 ss1 x).2
             ++ (biquadStep cs2 ss2 (biquadStep cs1 ss1 x).1).2) := by
  induction n with
  | zero =>
    intro cs1 ss1 cs2 ss2 x h1 h2
    rw [Nat.mul_zero] at h1 h2
    rw [List.length_eq_zero] at h1 h2
    subst h1; subst h2
    simp [biquadStep]
  | succ n ih =>
    intro cs1 ss1 cs2 ss2 x h1 h2
    rcases cs1 with _ | ⟨b0, _ | ⟨b1, _ | ⟨b2, _ | ⟨a1, _ | ⟨a2, cs1⟩⟩⟩⟩⟩ <;>
      simp only [List.length_nil, List.length_cons] at h1 <;> try omega
    rcases ss1 with _ | ⟨x1, _ | ⟨x2, _ | ⟨y1, _ | ⟨y2, ss1⟩⟩⟩⟩ <;>
      simp only [List.length_nil, List.length_cons] at h2 <;> try omega
    have h1n : cs1.length = 5 * n := by omega
    have h2n : ss1.length = 4 * n := by omega
    simp only [List.cons_append, biquadStep, List.append_eq]
    rw [ih cs1 ss1 cs2 ss2 _ h1n h2n]

/-- C1: for every FIR, IIR, or LMS instance with a fixed coefficient set and
every input sequence (with its matching reference sequence for LMS),
processing one sample at a time via processSample yields the same output
sequence (and error sequence for LMS) and the same final filter state as one
processBuffer call on the whole sequence. -/
theorem claim_C1_block_sample_equivalence :
    (∀ (f : FIRFilter) (xs : List ℚ), firIter f xs = f.processBuffer xs) ∧
    (∀ (f : IIRFilter) (xs : List ℚ), iirIter f xs = f.processBuffer xs) ∧
    (∀ (f : LMSFilter) (xs ds : List ℚ),
      lmsIter f xs ds = f.processBuffer xs ds) :=
  ⟨firIter_eq_processBuffer, iirIter_eq_processBuffer,
    lmsIter_eq_processBuffer⟩

/-- C2: every LMS processSample performs, in order: (1) output y is the dot
product of the current weights with the current delay line, (2) error
e = d - y, (3) every weight w(k) becomes w(k) + mu * e * history(k), (4) the
input is shifted into the delay line; and processBuffer applies this
four-step update once per sample, strictly sequentially, so later samples
see the adapted weights. -/
theorem claim_C2_lms_four_step_update :
    (∀ (w hist : List ℚ) (mu x d : ℚ), (lmsStep w hist mu x d).1 = dot w hist) ∧
    (∀ (w hist : List ℚ) (mu x d : ℚ),
      (lmsStep w hist mu x d).2.1 = d - dot w hist) ∧
    (∀ (w hist : List ℚ) (mu x d : ℚ),
      (lmsStep w hist mu x d).2.2.1
        = List.ofFn fun k : Fin w.length =>
            w.get k + mu * (d - dot w hist) * hist.getD k 0) ∧
    (∀ (w hist : List ℚ) (mu x d : ℚ),
      (lmsStep w hist mu x d).2.2.2 = (x :: hist).take hist.length) ∧
    (∀ (f : LMSFilter) (x d : ℚ),
      f.processSample x d
        = ((lmsStep f.coeffs f.state f.mu x d).1,
           (lmsStep f.coeffs f.state f.mu x d).2.1,
           { f with coeffs := (lmsStep f.coeffs f.state f.mu x d).2.2.1,
                    state := (lmsStep f.coeffs f.state f.mu x d).2.2.2 })) ∧
    (∀ (f : LMSFilter) (x d : ℚ) (xs ds : List ℚ),
      f.processBuffer (x :: xs) (d :: ds)
        = ((f.processSample x d).1
             :: ((f.processSample x d).2.2.processBuffer xs ds).1,
           (f.processSample x d).2.1
             :: ((f.processSample x d).2.2.processBuffer xs ds).2.1,
           ((f.processSample x d).2.2.processBuffer xs ds).2.2)) := by
  refine ⟨fun w hist mu x d => rfl, fun w hist mu x d => rfl,
    fun w hist mu x d => lmsUpdate_eq_ofFn w hist _,
    fun w hist mu x d => rfl, fun f x d => rfl,
    fun f x d xs ds => rfl⟩

/-- C5: each biquad section computes
y = b0*x + b1*x1 + b2*x2 - a1*y1 - a2*y2 from its own 4-element state slice,
then shifts that slice to (x, x1, y, y1); sections are applied in order, a
prefix cascade's output feeding the remaining cascade's input, and
processSample and processBuffer route every sample through the cascade. -/
theorem claim_C5_iir_section_recursion :
    (∀ (b0 b1 b2 a1 a2 : ℚ) (cs : List ℚ) (x1 x2 y1 y2 : ℚ) (ss : List ℚ)
        (x : ℚ),
      biquadStep (b0 :: b1 :: b2 :: a1 :: a2 :: cs)
          (x1 :: x2 :: y1 :: y2 :: ss) x
        = ((biquadStep cs ss
              (b0 * x + b1 * x1 + b2 * x2 - a1 * y1 - a2 * y2)).1,
           x :: x1 :: (b0 * x + b1 * x1 + b2 * x2 - a1 * y1 - a2 * y2) :: y1 ::
             (biquadStep cs ss
               (b0 * x + b1 * x1 + b2 * x2 - a1 * y1 - a2 * y2)).2)) ∧
    (∀ (cs1 ss1 cs2 ss2 : List ℚ) (x : ℚ) (n : ℕ), cs1.length = 5 * n →
      ss1.length = 4 * n →
      biquadStep (cs1 ++ cs2) (ss1 ++ ss2) x
        = ((biquadStep cs2 ss2 (biquadStep cs1 ss1 x).1).1,
           (biquadStep cs1 ss1 x).2
             ++ (biquadStep cs2 ss2 (biquadStep cs1 ss1 x).1).2)) ∧
    (∀ (f : IIRFilter) (x : ℚ),
      f.processSample x
        = ((biquadStep f.coeffs f.state x).1,
           { f with state := (biquadStep f.coeffs f.state x).2 })) ∧
    (∀ (f : IIRFilter) (x : ℚ) (xs : List ℚ),
      f.processBuffer (x :: xs)
        = ((f.processSample x).1 :: ((f.processSample x).2.processBuffer xs).1,
           ((f.processSample x).2.processBuffer xs).2)) := by
  refine ⟨fun b0 b1 b2 a1 a2 cs x1 x2 y1 y2 ss x => by simp [biquadStep],
    fun cs1 ss1 cs2 ss2 x n h1 h2 => biquadStep_append n cs1 ss1 cs2 ss2 x h1 h2,
    fun f x => rfl, fun f x xs => rfl⟩

/-- Witness for C5 at a concrete two-section cascade. -/
theorem claim_C5_witness :
    ([1, 2, 3, 4, 5] : List ℚ).length = 5 * 1 ∧
    ([9, 8, 7, 6] : List ℚ).length = 4 * 1 ∧
    biquadStep (([1, 2, 3, 4, 5] : List ℚ) ++ [1, 0, 0, 0, 0])
        (([9, 8, 7, 6] : List ℚ) ++ [0, 0, 0, 0]) 2
      = ((biquadStep [1, 0, 0, 0, 0] [0, 0, 0, 0]
            (biquadStep [1, 2, 3, 4, 5] [9, 8, 7, 6] 2).1).1,
         (biquadStep [1, 2, 3, 4, 5] [9, 8, 7, 6] 2).2
           ++ (biquadStep [1, 0, 0, 0, 0] [0, 0, 0, 0]
                (biquadStep [1, 2, 3, 4, 5] [9, 8, 7, 6] 2).1).2) :=
  ⟨by decide, by decide,
    claim_C5_iir_section_recursion.2.1 [1, 2, 3, 4, 5] [9, 8, 7, 6]
      [1, 0, 0, 0, 0] [0, 0, 0, 0] 2 1 (by decide) (by decide)⟩

lemma shiftIn_replicate_any (n : ℕ) (x : ℚ) :
    shiftIn (List.replicate (n + 1) 0) x = x :: List.replicate n 0 := by
  unfold shiftIn
  rw [List.length_replicate, List.take_succ_cons, List.take_replicate,
    Nat.min_eq_left (Nat.le_succ n)]

lemma arm_fir_zero_run (c : List ℚ) (n : ℕ) :
    ∀ (p m : ℕ), n ≤ m →
      (arm_fir_f32 c (List.replicate p 0 ++ 1 :: List.replicate m 0)
        (List.replicate n 0)).1
        = List.map (fun i => c.getD (p + 1 + i) 0) (List.range n) := by
  induction n with
  | zero => intro p m h; simp [arm_fir_f32]
  | succ n ih =>
    intro p m h
    obtain ⟨m2, rfl⟩ : ∃ k, m = k + 1 := ⟨m - 1, by omega⟩
    rw [show List.replicate (n + 1) (0 : ℚ) = 0 :: List.replicate n 0 from rfl]
    simp only [arm_fir_f32, shiftIn_impulse]
    rw [dot_impulse, ih (p + 1) m2 (by omega)]
    rw [List.range_succ_eq_map, List.map_cons, List.map_map]
    congr 1
    have hfg : (fun i => c.getD (p + 1 + 1 + i) 0)
        = ((fun i => c.getD (p + 1 + i) 0) ∘ Nat.succ) := by
      funext i
      simp only [Function.comp_apply, Nat.succ_eq_add_one]
      have hidx : p + 1 + 1 + i = p + 1 + (i + 1) := by omega
      rw [hidx]
    rw [hfg]

lemma map_getD_range (t : List ℚ) :
    List.map (fun i => t.getD i 0) (List.range t.length) = t := by
  induction t with
  | nil => simp
  | cons a t _ih =>
    rw [List.length_cons, List.range_succ_eq_map, List.map_cons, List.map_map]
    simp only [List.getD_cons_zero]
    congr 1

lemma getD_head_map (c : List ℚ) (hT : 1 ≤ c.length) :
    c.getD 0 0
      :: List.map (fun i => c.getD (0 + 1 + i) 0) (List.range (c.length - 1))
      = c := by
  cases c with
  | nil => simp at hT
  | cons a t =>
    simp only [List.getD_cons_zero, List.length_cons, Nat.add_sub_cancel]
    congr 1
    have harg : (fun i => (a :: t).getD (0 + 1 + i) 0)
        = fun i => t.getD i 0 := by
      funext i
      have hi : 0 + 1 + i = i + 1 := by omega
      rw [hi]
      simp
    rw [harg, map_getD_range]

/-- C3: a freshly constructed FIR instance fed a unit impulse (1 followed by
zeros) through successive processSample calls reproduces its coefficient
vector as the output sequence (tap count and block size within the uint16_t
constructor range, at least one tap and a block size of at least one). -/
theorem claim_C3_fir_impulse_response (c : List ℚ) (B : ℕ)
    (hT : 1 ≤ c.length) (hB : 1 ≤ B) (hT2 : c.length ≤ 65535)
    (hB2 : B ≤ 65535) :
    (firIter (FIRFilter.construct c B)
      (1 :: List.replicate (c.length - 1) 0)).1 = c := by
  obtain ⟨L2, hL2⟩ : ∃ k, firStateSize c.length B = k + 1 := by
    refine ⟨c.length + B - 2, ?_⟩
    unfold firStateSize
    rw [if_neg (by omega)]
    omega
  have hle : c.length - 1 ≤ L2 := by
    unfold firStateSize at hL2
    rw [if_neg (by omega)] at hL2
    omega
  rw [firIter_eq_processBuffer]
  show (arm_fir_f32 c (FIRFilter.construct c B).state
    (1 :: List.replicate (c.length - 1) 0)).1 = c
  have hstate : (FIRFilter.construct c B).state = List.replicate (L2 + 1) 0 := by
    rw [show (FIRFilter.construct c B).state
        = List.replicate (firStateSize c.length B) 0 from rfl, hL2]
  rw [hstate]
  simp only [arm_fir_f32, shiftIn_replicate_any]
  have h1 : (1 : ℚ) :: List.replicate L2 0
      = List.replicate 0 (0 : ℚ) ++ 1 :: List.replicate L2 0 := by simp
  rw [h1, dot_impulse, arm_fir_zero_run c (c.length - 1) 0 L2 hle]
  exact getD_head_map c hT

/-- Witness for C3 with coefficients 2, 3, 5 and block size 1. -/
theorem claim_C3_witness :
    1 ≤ ([2, 3, 5] : List ℚ).length ∧ 1 ≤ 1 ∧
    ([2, 3, 5] : List ℚ).length ≤ 65535 ∧ 1 ≤ 65535 ∧
    (firIter (FIRFilter.construct [2, 3, 5] 1)
      (1 :: List.replicate (([2, 3, 5] : List ℚ).length - 1) 0)).1
      = [2, 3, 5] :=
  ⟨by decide, by decide, by decide, by decide,
    claim_C3_fir_impulse_response [2, 3, 5] 1 (by decide) (by decide)
      (by decide) (by decide)⟩

lemma arm_fir_output_length (c s xs : List ℚ) :
    (arm_fir_f32 c s xs).1.length = xs.length := by
  induction xs generalizing s with
  | nil => simp [arm_fir_f32]
  | cons x xs ih => simp [arm_fir_f32, ih]

/-- C4 counterexample: the FIRFilter constructor with tap count 0 (empty
coefficient array) and block size 1 reports no error and yields a perfectly
usable instance: processSample runs and returns 0 and leaves the instance
unchanged, refuting that a usable instance exists only when the tap count is
at least 1. -/
theorem claim_C4_counterexample :
    ((FIRFilter.construct [] 1).processSample 7).1 = 0 ∧
    ((FIRFilter.construct [] 1).processSample 7).2 = FIRFilter.construct [] 1 := by
  decide

/-- C4 as amended: FIRFilter construction performs no validation at all: for
every coefficient list and block size, including tap count 0 or block size 0,
the constructor simply stores its arguments and allocates the zero state
buffer of firStateSize entries (wrap-around size for tap count = block
size = 0), and the resulting instance processes any buffer normally, one
output per input; no configuration error is detected or reported. -/
theorem claim_C4_no_construction_validation :
    (∀ (c : List ℚ) (B : ℕ),
      FIRFilter.construct c B
        = { coeffs := c, blockSize := B,
            state := List.replicate (firStateSize c.length B) 0 }) ∧
    (∀ (c : List ℚ) (B : ℕ) (xs : List ℚ),
      ((FIRFilter.construct c B).processBuffer xs).1.length = xs.length) :=
  ⟨fun _ _ => rfl, fun c _ xs => arm_fir_output_length c _ xs⟩

/-- C6: resetCoefficients with a null argument zeroes all weights and the
whole delay line, and the very next processSample then outputs y = 0
whatever the prior adaptation history; resetCoefficients with a vector of
the instance tap count installs that vector and still zeroes the delay
line. -/
theorem claim_C6_reset_coefficients :
    (∀ f : LMSFilter,
      (f.resetCoefficients none).coeffs = List.replicate f.coeffs.length 0) ∧
    (∀ f : LMSFilter,
      (f.resetCoefficients none).state = List.replicate f.coeffs.length 0) ∧
    (∀ (f : LMSFilter) (x d : ℚ),
      ((f.resetCoefficients none).processSample x d).1 = 0) ∧
    (∀ (f : LMSFilter) (v : List ℚ), v.length = f.coeffs.length →
      (f.resetCoefficients (some v)).coeffs = v) ∧
    (∀ (f : LMSFilter) (v : List ℚ),
      (f.resetCoefficients (some v)).state
        = List.replicate f.coeffs.length 0) := by
  refine ⟨fun f => rfl, fun f => rfl, fun f x d => ?_, fun f v hv => ?_,
    fun f v => rfl⟩
  · show dot (List.replicate f.coeffs.length 0)
      (List.replicate f.coeffs.length 0) = 0
    exact dot_replicate_zero _ _
  · show v.take f.coeffs.length = v
    rw [← hv]
    exact List.take_length v

/-- Witness for C6 on a concrete two-tap instance. -/
theorem claim_C6_witness :
    ([4, 5] : List ℚ).length
      = (LMSFilter.construct [1, 2] (1 / 2) 1).coeffs.length ∧
    ((LMSFilter.construct [1, 2] (1 / 2) 1).resetCoefficients
        (some [4, 5])).coeffs = [4, 5] :=
  ⟨by decide,
    claim_C6_reset_coefficients.2.2.2.1 (LMSFilter.construct [1, 2] (1 / 2) 1)
      [4, 5] (by decide)⟩

lemma fir_zero_input (c : List ℚ) (B N : ℕ) :
    (FIRFilter.construct c B).processBuffer (List.replicate N 0)
      = (List.replicate N 0, FIRFilter.construct c B) := by
  have hz := arm_fir_zeros c (firStateSize c.length B) N
  show ((arm_fir_f32 c (List.replicate (firStateSize c.length B) 0)
        (List.replicate N 0)).1,
      ({ coeffs := c, blockSize := B,
         state := (arm_fir_f32 c (List.replicate (firStateSize c.length B) 0)
           (List.replicate N 0)).2 } : FIRFilter))
    = (List.replicate N 0, FIRFilter.construct c B)
  rw [hz]
  rfl

lemma iir_zero_input (c : List ℚ) (S B N : ℕ) :
    (IIRFilter.construct c S B).processBuffer (List.replicate N 0)
      = (List.replicate N 0, IIRFilter.construct c S B) := by
  have hz := arm_biquad_zeros c (4 * S) N
  show ((arm_biquad_cascade_df1_f32 c (List.replicate (4 * S) 0)
        (List.replicate N 0)).1,
      ({ coeffs := c, numStages := S, blockSize := B,
         state := (arm_biquad_cascade_df1_f32 c (List.replicate (4 * S) 0)
           (List.replicate N 0)).2 } : IIRFilter))
    = (List.replicate N 0, IIRFilter.construct c S B)
  rw [hz]
  rfl

/-- C9: a freshly constructed FIR or IIR instance fed an all-zero sequence of
any length, through processBuffer or sample by sample, produces an all-zero
output sequence and is left with its state buffer still all zero. -/
theorem claim_C9_zero_input_idempotence :
    (∀ (c : List ℚ) (B N : ℕ),
      (FIRFilter.construct c B).processBuffer (List.replicate N 0)
        = (List.replicate N 0, FIRFilter.construct c B)) ∧
    (∀ (c : List ℚ) (B N : ℕ),
      firIter (FIRFilter.construct c B) (List.replicate N 0)
        = (List.replicate N 0, FIRFilter.construct c B)) ∧
    (∀ (c : List ℚ) (S B N : ℕ),
      (IIRFilter.construct c S B).processBuffer (List.replicate N 0)
        = (List.replicate N 0, IIRFilter.construct c S B)) ∧
    (∀ (c : List ℚ) (S B N : ℕ),
      iirIter (IIRFilter.construct c S B) (List.replicate N 0)
        = (List.replicate N 0, IIRFilter.construct c S B)) :=
  ⟨fir_zero_input,
    fun c B N => by rw [firIter_eq_processBuffer]; exact fir_zero_input c B N,
    iir_zero_input,
    fun c S B N => by rw [iirIter_eq_processBuffer]; exact iir_zero_input c S B N⟩

/-- C8: setMu overwrites the step size, so getMu returns the new value and
the very next processSample adapts the weights with the new step size, while
the weights, the delay line and the block size are left unchanged. -/
theorem claim_C8_set_mu :
    (∀ (f : LMSFilter) (v : ℚ), (f.setMu v).getMu = v) ∧
    (∀ (f : LMSFilter) (v : ℚ), (f.setMu v).coeffs = f.coeffs) ∧
    (∀ (f : LMSFilter) (v : ℚ), (f.setMu v).state = f.state) ∧
    (∀ (f : LMSFilter) (v : ℚ), (f.setMu v).blockSize = f.blockSize) ∧
    (∀ (f : LMSFilter) (v x d : ℚ),
      ((f.setMu v).processSample x d).2.2.coeffs
        = lmsUpdate f.coeffs f.state (v * (d - dot f.coeffs f.state))) :=
  ⟨fun _ _ => rfl, fun _ _ => rfl, fun _ _ => rfl, fun _ _ => rfl,
    fun _ _ _ _ => rfl⟩

/-- C10: resetCoefficients writes only the weights and the delay line: the
step size (also as read by getMu), the block size and the tap count are
unchanged, and the next processSample adapts with the same step size as
before the reset. -/
theorem claim_C10_reset_frame :
    (∀ (f : LMSFilter) (o : Option (List ℚ)),
      (f.resetCoefficients o).mu = f.mu) ∧
    (∀ (f : LMSFilter) (o : Option (List ℚ)),
      (f.resetCoefficients o).getMu = f.getMu) ∧
    (∀ (f : LMSFilter) (o : Option (List ℚ)),
      (f.resetCoefficients o).blockSize = f.blockSize) ∧
    (∀ f : LMSFilter,
      (f.resetCoefficients none).coeffs.length = f.coeffs.length) ∧
    (∀ (f : LMSFilter) (v : List ℚ), f.coeffs.length ≤ v.length →
      (f.resetCoefficients (some v)).coeffs.length = f.coeffs.length) ∧
    (∀ (f : LMSFilter) (o : Option (List ℚ)) (x d : ℚ),
      ((f.resetCoefficients o).processSample x d).2.2.coeffs
        = lmsUpdate (f.resetCoefficients o).coeffs (f.resetCoefficients o).state
            (f.mu * (d - dot (f.resetCoefficients o).coeffs
              (f.resetCoefficients o).state))) := by
  refine ⟨fun f o => rfl, fun f o => rfl, fun f o => rfl, fun f => ?_,
    fun f v hv => ?_, fun f o x d => rfl⟩
  · show (List.replicate f.coeffs.length (0 : ℚ)).length = f.coeffs.length
    exact List.length_replicate _ _
  · show (v.take f.coeffs.length).length = f.coeffs.length
    rw [List.length_take]
    exact Nat.min_eq_left hv

/-- Witness for C10 on a concrete two-tap instance and a longer vector. -/
theorem claim_C10_witness :
    (LMSFilter.construct [1, 2] (1 / 4) 1).coeffs.length
      ≤ ([7, 8, 9] : List ℚ).length ∧
    ((LMSFilter.construct [1, 2] (1 / 4) 1).resetCoefficients
        (some [7, 8, 9])).coeffs.length
      = (LMSFilter.construct [1, 2] (1 / 4) 1).coeffs.length :=
  ⟨by decide,
    claim_C10_reset_frame.2.2.2.2.1 (LMSFilter.construct [1, 2] (1 / 4) 1)
      [7, 8, 9] (by decide)⟩

/-- C7: the state-buffer length is a pure function of the construction
parameters: a FIR instance allocates exactly numTaps + blockSize - 1
zero-initialized entries (whenever the two counts are not both zero), an IIR
instance exactly 4 * numStages, an LMS instance exactly numTaps (no
blockSize - 1 extension); and no processSample or processBuffer call of any
engine changes the state-buffer length. -/
theorem claim_C7_state_buffer_length :
    (∀ (c : List ℚ) (B : ℕ), 1 ≤ c.length + B →
      (FIRFilter.construct c B).state
        = List.replicate (c.length + B - 1) 0) ∧
    (∀ (c : List ℚ) (S B : ℕ),
      (IIRFilter.construct c S B).state = List.replicate (4 * S) 0) ∧
    (∀ (c : List ℚ) (mu : ℚ) (B : ℕ),
      (LMSFilter.construct c mu B).state = List.replicate c.length 0) ∧
    (∀ (f : FIRFilter) (x : ℚ),
      ((f.processSample x).2).state.length = f.state.length) ∧
    (∀ (f : FIRFilter) (xs : List ℚ),
      ((f.processBuffer xs).2).state.length = f.state.length) ∧
    (∀ (f : IIRFilter) (x : ℚ),
      ((f.processSample x).2).state.length = f.state.length) ∧
    (∀ (f : IIRFilter) (xs : List ℚ),
      ((f.processBuffer xs).2).state.length = f.state.length) ∧
    (∀ (f : LMSFilter) (x d : ℚ),
      ((f.processSample x d).2.2).state.length = f.state.length) ∧
    (∀ (f : LMSFilter) (xs ds : List ℚ),
      ((f.processBuffer xs ds).2.2).state.length = f.state.length) := by
  refine ⟨fun c B h => ?_, fun c S B => rfl, fun c mu B => rfl,
    fun f x => arm_fir_state_length f.coeffs f.state [x],
    fun f xs => arm_fir_state_length f.coeffs f.state xs,
    fun f x => arm_biquad_state_length f.coeffs f.state [x],
    fun f xs => arm_biquad_state_length f.coeffs f.state xs,
    fun f x d => arm_lms_state_length f.mu f.coeffs f.state [x] [d],
    fun f xs ds => arm_lms_state_length f.mu f.coeffs f.state xs ds⟩
  have hsize : firStateSize c.length B = c.length + B - 1 := by
    unfold firStateSize
    rw [if_neg (by omega)]
  show List.replicate (firStateSize c.length B) 0
    = List.replicate (c.length + B - 1) 0
  rw [hsize]

/-- Witness for C7 on a concrete one-tap, block-size-two FIR instance. -/
theorem claim_C7_witness :
    1 ≤ ([1] : List ℚ).length + 2 ∧
    (FIRFilter.construct [1] 2).state
      = List.replicate (([1] : List ℚ).length + 2 - 1) 0 :=
  ⟨by decide, claim_C7_state_buffer_length.1 [1] 2 (by decide)⟩
